import Mathlib

/-
Verification of the chart-data aggregation logic of the excel analytics
platform.  The embedded code is the `generateChartData` handler of the
chart analysis page (the only algorithmic core of the repository): it
either aggregates rows into a pie mapping keyed by the stringified
x-axis cell, or maps rows into parallel label/value arrays for
bar/line/scatter charts.  JavaScript semantics that matter here are
modelled explicitly: `parseFloat(v) || 0` numeric coercion, object
property lookup/update on string keys with `undefined` stringification,
and the property-key ordering of plain objects (canonical array-index
keys first, in ascending numeric order, then the remaining string keys
in insertion order), which `Object.keys` / `Object.values` follow.

Numbers are modelled as rationals: the JavaScript floats occurring in
this feature are decimal literals from spreadsheet cells, and the
claims under verification are structural (lengths, orders, sums,
grouping), not about rounding; non-finite values (`Infinity`, `NaN`)
are outside the rational model, and `NaN` is in any case collapsed to
`0` by the `|| 0` in the source.
-/

/-- A scalar cell value of a decoded spreadsheet row: a string or a
number (rational model of a JavaScript number). -/
inductive Value where
  | str (s : String)
  | num (q : Rat)
deriving DecidableEq

/-- A row of the dataset: a JavaScript object mapping column names to
scalar cell values, modelled as an insertion-ordered association list
with unique keys; `row[c]` is the first-match lookup, `none` standing
for `undefined` (absent column). -/
abbrev Row := List (String × Value)

/-- Digit run to a natural number, as read left to right. -/
def digitsVal (ds : List Char) : Nat :=
  ds.foldl (fun a c => 10 * a + (c.toNat - 48)) 0

/-- ASCII whitespace skipped by `parseFloat` before the number. -/
def isJSWhitespace (c : Char) : Bool :=
  c = ' ' || c = '\t' || c = '\n' || c = '\r' || c = '\x0b' || c = '\x0c'

/-- `parseFloat` on a character list: skip leading whitespace, then
read the longest prefix of the form sign, digits, optional point and
digits, optional exponent; return `none` (JavaScript `NaN`) when no
mantissa digit is found.  Trailing garbage is ignored, as in
JavaScript.  (`Infinity` is outside the rational model; see the header
comment.) -/
def parseFloatCore (cs : List Char) : Option Rat :=
  let cs := cs.dropWhile isJSWhitespace
  let sc : Int × List Char :=
    match cs with
    | '+' :: t => (1, t)
    | '-' :: t => (-1, t)
    | _ => (1, cs)
  let ip := sc.2.takeWhile Char.isDigit
  let cs1 := sc.2.dropWhile Char.isDigit
  let fc : List Char × List Char :=
    match cs1 with
    | '.' :: t => (t.takeWhile Char.isDigit, t.dropWhile Char.isDigit)
    | _ => ([], cs1)
  if ip.isEmpty && fc.1.isEmpty then none
  else
    let mant : Rat := ((sc.1 * (digitsVal (ip ++ fc.1) : Int) : Int) : Rat) /
      ((10 ^ fc.1.length : Nat) : Rat)
    let e : Int :=
      match fc.2 with
      | c :: t =>
        if c = 'e' || c = 'E' then
          let et : Int × List Char :=
            match t with
            | '+' :: u => (1, u)
            | '-' :: u => (-1, u)
            | _ => (1, t)
          let ed := et.2.takeWhile Char.isDigit
          if ed.isEmpty then 0 else et.1 * (digitsVal ed : Int)
        else 0
      | [] => 0
    some (if 0 ≤ e then mant * ((10 ^ e.toNat : Nat) : Rat)
          else mant / ((10 ^ (-e).toNat : Nat) : Rat))

/-- `parseFloat` on a string; `none` is JavaScript `NaN`. -/
def parseFloatQ (s : String) : Option Rat :=
  parseFloatCore s.toList

/-- Decimal digits of the fractional part `r / d`, fuel-bounded. -/
def fracDigits : Nat → Nat → Nat → List Char
  | 0, _, _ => []
  | fuel + 1, r, d =>
    if r = 0 then []
    else Char.ofNat (48 + 10 * r / d) :: fracDigits fuel (10 * r % d) d

/-- JavaScript number-to-string conversion on the rational model:
exact for integers (the only numeric cells the claims exercise);
non-integer rationals print sign, integer part, point and up to twenty
fraction digits, matching JavaScript on short terminating decimals. -/
def jsNumToString (q : Rat) : String :=
  let sgn := if q.num < 0 then "-" else ""
  let n := q.num.natAbs
  if n % q.den = 0 then sgn ++ toString (n / q.den)
  else sgn ++ toString (n / q.den) ++ "." ++ String.mk (fracDigits 20 (n % q.den) q.den)

/-- JavaScript string conversion of a possibly absent cell value, as
performed by object-property access on `row[xAxis]` and by
`parseFloat`'s argument conversion: `undefined` prints as the string
literal used as the object key. -/
def toJSString : Option Value → String
  | none => "undefined"
  | some (.str s) => s
  | some (.num q) => jsNumToString q

/-- `parseFloat(v) || 0` of the source: numbers round-trip through
their string form exactly (finite floats do in JavaScript), strings
and `undefined` go through `parseFloat`, and a failed parse (`NaN`,
falsy) is replaced by `0`. -/
def toNumJS (v : Option Value) : Rat :=
  match v with
  | some (.num q) => q
  | _ => (parseFloatQ (toJSString v)).getD 0

/-- The `aggregated` object of the pie branch: a JavaScript object
with string keys and numeric values, as an insertion-ordered
association list with unique keys. -/
abbrev JSObj := List (String × Rat)

/-- `aggregated[k] = (aggregated[k] || 0) + v` of the source: update
the existing entry in place, or append a fresh entry at the end. -/
def objInsertAdd : JSObj → String → Rat → JSObj
  | [], k, v => [(k, v)]
  | (k0, v0) :: rest, k, v =>
    if k0 = k then (k0, v0 + v) :: rest else (k0, v0) :: objInsertAdd rest k v

/-- `aggregated[k] || 0`: first-match lookup, `0` when absent. -/
def objGet : JSObj → String → Rat
  | [], _ => 0
  | (k0, v0) :: rest, k => if k0 = k then v0 else objGet rest k

/-- Numeric reading of a property key (only meaningful on canonical
array-index keys). -/
def keyNum (s : String) : Nat :=
  (s.toNat?).getD 0

/-- Whether a property key is a canonical array index in the JavaScript
sense: the decimal representation, with no leading zero, of a natural
number below 2^32 - 1. -/
def isArrayIndexKey (s : String) : Bool :=
  match s.toNat? with
  | some n => decide (n < 4294967295) && decide (toString n = s)
  | none => false

/-- Order on object entries by numeric key value. -/
def entryLE (a b : String × Rat) : Prop :=
  keyNum a.1 ≤ keyNum b.1

instance : DecidableRel entryLE :=
  fun a b => Nat.decLe (keyNum a.1) (keyNum b.1)

/-- Order on property keys by numeric value. -/
def keyLE (a b : String) : Prop :=
  keyNum a ≤ keyNum b

instance : DecidableRel keyLE :=
  fun a b => Nat.decLe (keyNum a) (keyNum b)

/-- JavaScript own-property order of a plain object: canonical
array-index keys first, in ascending numeric order, then all other
keys in insertion order.  `Object.keys` and `Object.values` both
enumerate in this order. -/
def jsOrderEntries (o : JSObj) : JSObj :=
  (o.filter fun e => isArrayIndexKey e.1).insertionSort entryLE ++
    (o.filter fun e => !isArrayIndexKey e.1)

/-- `Object.keys` of the aggregation object. -/
def jsObjectKeys (o : JSObj) : List String :=
  (jsOrderEntries o).map Prod.fst

/-- `Object.values` of the aggregation object. -/
def jsObjectValues (o : JSObj) : List Rat :=
  (jsOrderEntries o).map Prod.snd

/-- The same key reordering expressed directly on a list of keys. -/
def jsKeyOrder (ks : List String) : List String :=
  (ks.filter isArrayIndexKey).insertionSort keyLE ++
    (ks.filter fun k => !isArrayIndexKey k)

/-- The `chartConfig` component state: chart type, title and the two
selected axis columns (empty string when unset, as in the source's
initial state). -/
structure ChartConfig where
  type : String
  title : String
  xAxis : String
  yAxis : String
deriving DecidableEq

/-- The fixed `backgroundColor` palette of the pie branch. -/
def pieColors : List String :=
  ["#FF6384", "#36A2EB", "#FFCE56", "#4BC0C0", "#9966FF", "#FF9F40"]

/-- The single dataset object built by the pie branch. -/
structure PieDataset where
  data : List Rat
  backgroundColor : List String
deriving DecidableEq

/-- The single dataset object built by the bar/line/scatter branch. -/
structure CartDataset where
  label : String
  data : List Rat
  backgroundColor : Option String
  borderColor : String
  borderWidth : Nat
  fill : Bool
deriving DecidableEq

/-- The `chartData` state set by `generateChartData`: the pie shape
(string labels from `Object.keys`) or the cartesian shape (raw,
possibly `undefined`, cell values as labels). -/
inductive ChartData where
  | pie (labels : List String) (datasets : List PieDataset)
  | cart (labels : List (Option Value)) (datasets : List CartDataset)
deriving DecidableEq

/-- The pie-branch accumulation loop: for each row in order, add the
`parseFloat || 0` coercion of the y cell to the entry keyed by the
stringified x cell. -/
def buildAggregated (data : List Row) (xAxis yAxis : String) : JSObj :=
  data.foldl
    (fun acc row => objInsertAdd acc (toJSString (row.lookup xAxis)) (toNumJS (row.lookup yAxis)))
    []

/-- The body of `generateChartData` past its guard, building the new
`chartData` value from the rows and the configuration. -/
def mkChartData (data : List Row) (cfg : ChartConfig) : ChartData :=
  if cfg.type = "pie" then
    ChartData.pie (jsObjectKeys (buildAggregated data cfg.xAxis cfg.yAxis))
      [⟨jsObjectValues (buildAggregated data cfg.xAxis cfg.yAxis), pieColors⟩]
  else
    ChartData.cart (data.map fun row => row.lookup cfg.xAxis)
      [⟨cfg.yAxis,
        data.map fun row => toNumJS (row.lookup cfg.yAxis),
        (if cfg.type = "bar" then some "rgba(54, 162, 235, 0.6)" else none),
        "rgba(54, 162, 235, 1)", 2, false⟩]

/-- `generateChartData` as a state transformer on the `chartData`
component state: when `excelData` is absent or either axis selection is
the empty string the handler returns early and the previous state is
kept (a no-op); otherwise the new chart data replaces it.  The
`excelData` record is reduced to its `data` field, the only one the
function reads. -/
def generateChartData (excelData : Option (List Row)) (cfg : ChartConfig)
    (chartData : Option ChartData) : Option ChartData :=
  match excelData with
  | none => chartData
  | some data =>
    if cfg.xAxis = "" ∨ cfg.yAxis = "" then chartData
    else some (mkChartData data cfg)

/-- First occurrences of a key list, in order, skipping keys already
seen: the spec's notion of first-seen key order. -/
def firstSeenAux (seen : List String) : List String → List String
  | [] => []
  | k :: t => if k ∈ seen then firstSeenAux seen t else k :: firstSeenAux (k :: seen) t

/-- A cell on which the numeric coercion fails: absent, or a string
that `parseFloat` cannot read a number from.  (A number cell always
coerces to itself.) -/
def nonNumericCell : Option Value → Bool
  | none => true
  | some (.str s) => (parseFloatQ s).isNone
  | some (.num _) => false

/-- Updating one key of the aggregation object adds its increment to
the total of the stored values. -/
theorem sum_snd_objInsertAdd (o : JSObj) (k : String) (v : Rat) :
    ((objInsertAdd o k v).map Prod.snd).sum = (o.map Prod.snd).sum + v := by
  induction o with
  | nil => simp [objInsertAdd]
  | cons e rest ih =>
    obtain ⟨k0, v0⟩ := e
    by_cases h : k0 = k
    · simp only [objInsertAdd, if_pos h, List.map_cons, List.sum_cons]
      ring
    · simp only [objInsertAdd, if_neg h, List.map_cons, List.sum_cons, ih]
      ring

/-- The accumulation loop of the pie branch adds exactly the coerced
y value of every processed row to the total of the stored values. -/
theorem sum_snd_buildLoop (xA yA : String) (rows : List Row) :
    ∀ acc : JSObj,
      ((rows.foldl
          (fun a row => objInsertAdd a (toJSString (row.lookup xA)) (toNumJS (row.lookup yA)))
          acc).map Prod.snd).sum
        = (acc.map Prod.snd).sum + (rows.map fun r => toNumJS (r.lookup yA)).sum := by
  induction rows with
  | nil => intro acc; simp
  | cons r rest ih =>
    intro acc
    simp only [List.foldl_cons, List.map_cons, List.sum_cons, ih, sum_snd_objInsertAdd]
    ring

/-- The values stored in the aggregation object total exactly the sum
of the coerced y cells of the dataset. -/
theorem sum_snd_buildAggregated (d : List Row) (xA yA : String) :
    ((buildAggregated d xA yA).map Prod.snd).sum
      = ((d.map fun r => toNumJS (r.lookup yA)).sum) := by
  simpa using sum_snd_buildLoop xA yA d []

/-- The JavaScript property order is a permutation of the insertion
order of the aggregation object. -/
theorem perm_jsOrderEntries (o : JSObj) : (jsOrderEntries o).Perm o := by
  unfold jsOrderEntries
  exact ((List.perm_insertionSort entryLE _).append (List.Perm.refl _)).trans
    (List.filter_append_perm _ o)

/-- Updating one key either keeps the key list (key present) or
appends the key at the end (key fresh). -/
theorem fst_objInsertAdd (o : JSObj) (k : String) (v : Rat) :
    (objInsertAdd o k v).map Prod.fst =
      if k ∈ o.map Prod.fst then o.map Prod.fst else o.map Prod.fst ++ [k] := by
  induction o with
  | nil => simp [objInsertAdd]
  | cons e rest ih =>
    obtain ⟨k0, v0⟩ := e
    by_cases h : k0 = k
    · subst h
      simp [objInsertAdd]
    · by_cases hm : k ∈ rest.map Prod.fst
      · simp [objInsertAdd, h, ih, hm, Ne.symm h]
      · simp [objInsertAdd, h, ih, hm, Ne.symm h]

/-- `firstSeenAux` only depends on the membership of the seen set. -/
theorem firstSeenAux_congr (l : List String) :
    ∀ s1 s2 : List String, (∀ a, a ∈ s1 ↔ a ∈ s2) →
      firstSeenAux s1 l = firstSeenAux s2 l := by
  induction l with
  | nil => intro s1 s2 _; rfl
  | cons k t ih =>
    intro s1 s2 h
    by_cases hk : k ∈ s1
    · simp only [firstSeenAux, if_pos hk, if_pos ((h k).mp hk)]
      exact ih s1 s2 h
    · simp only [firstSeenAux, if_neg hk, if_neg (fun hc => hk ((h k).mpr hc))]
      exact congrArg (List.cons k) (ih (k :: s1) (k :: s2) (fun a => by simp [h a]))

/-- The key list produced by the accumulation loop: the keys of the
accumulator followed by the first occurrences of the not-yet-seen
stringified x cells, in row order. -/
theorem fst_buildLoop (xA yA : String) (rows : List Row) :
    ∀ acc : JSObj,
      ((rows.foldl
          (fun a row => objInsertAdd a (toJSString (row.lookup xA)) (toNumJS (row.lookup yA)))
          acc).map Prod.fst)
        = acc.map Prod.fst ++
            firstSeenAux (acc.map Prod.fst) (rows.map fun r => toJSString (r.lookup xA)) := by
  induction rows with
  | nil => intro acc; simp [firstSeenAux]
  | cons r rest ih =>
    intro acc
    simp only [List.foldl_cons, List.map_cons]
    rw [ih]
    by_cases hk : toJSString (r.lookup xA) ∈ acc.map Prod.fst
    · rw [fst_objInsertAdd, if_pos hk]
      simp only [firstSeenAux, if_pos hk]
    · rw [fst_objInsertAdd, if_neg hk]
      simp only [firstSeenAux, if_neg hk]
      rw [firstSeenAux_congr (rest.map fun r => toJSString (r.lookup xA))
            (acc.map Prod.fst ++ [toJSString (r.lookup xA)])
            (toJSString (r.lookup xA) :: acc.map Prod.fst)
            (fun a => by simp [or_comm]),
          List.append_assoc, List.singleton_append]

/-- The keys of the aggregation object are the first-seen stringified
x cells of the dataset, in row order. -/
theorem fst_buildAggregated (d : List Row) (xA yA : String) :
    (buildAggregated d xA yA).map Prod.fst
      = firstSeenAux [] (d.map fun r => toJSString (r.lookup xA)) := by
  simpa [firstSeenAux] using fst_buildLoop xA yA d []

/-- Membership in the first-seen key list. -/
theorem mem_firstSeenAux (a : String) (l : List String) :
    ∀ seen : List String, a ∈ firstSeenAux seen l ↔ a ∈ l ∧ a ∉ seen := by
  induction l with
  | nil => intro seen; simp [firstSeenAux]
  | cons k t ih =>
    intro seen
    by_cases hk : k ∈ seen
    · simp only [firstSeenAux, if_pos hk, ih seen, List.mem_cons]
      constructor
      · rintro ⟨h1, h2⟩
        exact ⟨Or.inr h1, h2⟩
      · rintro ⟨rfl | h1, h2⟩
        · exact absurd hk h2
        · exact ⟨h1, h2⟩
    · simp only [firstSeenAux, if_neg hk, List.mem_cons, ih (k :: seen)]
      constructor
      · rintro (rfl | ⟨h1, h2⟩)
        · exact ⟨Or.inl rfl, hk⟩
        · exact ⟨Or.inr h1, fun hs => h2 (Or.inr hs)⟩
      · rintro ⟨h1, h2⟩
        by_cases hak : a = k
        · exact Or.inl hak
        · rcases h1 with rfl | h1
          · exact Or.inl rfl
          · exact Or.inr ⟨h1, by
              rintro (rfl | hs)
              · exact hak rfl
              · exact h2 hs⟩

/-- The first-seen key list never repeats a key. -/
theorem nodup_firstSeenAux (l : List String) :
    ∀ seen : List String, (firstSeenAux seen l).Nodup := by
  induction l with
  | nil => intro seen; simp [firstSeenAux]
  | cons k t ih =>
    intro seen
    by_cases hk : k ∈ seen
    · simpa only [firstSeenAux, if_pos hk] using ih seen
    · simp only [firstSeenAux, if_neg hk]
      refine List.nodup_cons.mpr ⟨?_, ih (k :: seen)⟩
      intro hmem
      exact ((mem_firstSeenAux k t (k :: seen)).mp hmem).2 (List.mem_cons_self k seen)

/-- Reading back a key after an update: the stored value grows by the
increment exactly on the updated key. -/
theorem objGet_objInsertAdd (o : JSObj) (k1 k : String) (v : Rat) :
    objGet (objInsertAdd o k1 v) k = objGet o k + (if k1 = k then v else 0) := by
  induction o with
  | nil =>
    by_cases h : k1 = k
    · simp [objInsertAdd, objGet, h]
    · simp [objInsertAdd, objGet, h]
  | cons e rest ih =>
    obtain ⟨k0, v0⟩ := e
    by_cases h : k0 = k1
    · subst h
      simp only [objInsertAdd, if_pos rfl]
      by_cases h2 : k0 = k
      · simp [objGet, h2]
      · simp [objGet, h2]
    · simp only [objInsertAdd, if_neg h]
      by_cases h2 : k0 = k
      · have hne : ¬k1 = k := fun hc => h (h2.trans hc.symm)
        simp [objGet, h2, hne]
      · simp [objGet, h2, ih]

/-- Running the accumulation loop, the value stored under a key grows
by the summed coerced y cells of the rows whose stringified x cell is
that key. -/
theorem objGet_buildLoop (xA yA k : String) (rows : List Row) :
    ∀ acc : JSObj,
      objGet (rows.foldl
          (fun a row => objInsertAdd a (toJSString (row.lookup xA)) (toNumJS (row.lookup yA)))
          acc) k
        = objGet acc k +
            ((rows.filter fun r => toJSString (r.lookup xA) == k).map
              fun r => toNumJS (r.lookup yA)).sum := by
  induction rows with
  | nil => intro acc; simp
  | cons r rest ih =>
    intro acc
    by_cases h : toJSString (r.lookup xA) = k
    · simp only [List.foldl_cons, ih, objGet_objInsertAdd, if_pos h, List.filter_cons,
        h, beq_self_eq_true, if_pos, List.map_cons, List.sum_cons]
      ring
    · have hb : (toJSString (r.lookup xA) == k) = false := beq_eq_false_iff_ne.mpr h
      simp only [List.foldl_cons, ih, objGet_objInsertAdd, if_neg h]
      simp [List.filter_cons, hb]

/-- The aggregation object stores, under each key, the sum of the
coerced y cells of exactly the rows grouped onto that key. -/
theorem objGet_buildAggregated (d : List Row) (xA yA k : String) :
    objGet (buildAggregated d xA yA) k
      = ((d.filter fun r => toJSString (r.lookup xA) == k).map
          fun r => toNumJS (r.lookup yA)).sum := by
  simpa [objGet] using objGet_buildLoop xA yA k d []

/-- A key present in the key list occurs as an entry paired with its
stored value. -/
theorem mem_entry_of_mem_keys (o : JSObj) (k : String) (h : k ∈ o.map Prod.fst) :
    (k, objGet o k) ∈ o := by
  induction o with
  | nil => simp at h
  | cons e rest ih =>
    obtain ⟨k0, v0⟩ := e
    by_cases h2 : k0 = k
    · subst h2
      simp [objGet]
    · have hr : k ∈ rest.map Prod.fst := by
        rcases List.mem_cons.mp h with hh | hh
        · exact absurd hh.symm h2
        · exact hh
      simp only [objGet, if_neg h2]
      exact List.mem_cons_of_mem _ (ih hr)

/-- Zipping the key and value projections recovers the entry list. -/
theorem zip_fst_snd_entries (o : JSObj) :
    (o.map Prod.fst).zip (o.map Prod.snd) = o := by
  induction o with
  | nil => rfl
  | cons e rest ih => simp [List.zip_cons_cons, ih]

/-- Inserting into a sorted run commutes with taking keys. -/
theorem map_fst_orderedInsert (e : String × Rat) (l : List (String × Rat)) :
    (l.orderedInsert entryLE e).map Prod.fst
      = (l.map Prod.fst).orderedInsert keyLE e.1 := by
  induction l with
  | nil => rfl
  | cons b t ih =>
    by_cases h : entryLE e b
    · have h2 : keyLE e.1 b.1 := h
      simp [List.orderedInsert, h, h2]
    · have h2 : ¬keyLE e.1 b.1 := h
      simp [List.orderedInsert, h, h2, ih]

/-- Sorting the entries commutes with taking keys. -/
theorem map_fst_insertionSort (l : List (String × Rat)) :
    (l.insertionSort entryLE).map Prod.fst
      = (l.map Prod.fst).insertionSort keyLE := by
  induction l with
  | nil => rfl
  | cons b t ih =>
    simp only [List.insertionSort, List.map_cons]
    rw [map_fst_orderedInsert, ih]

/-- Filtering entries on a key predicate commutes with taking keys. -/
theorem map_fst_filter (p : String → Bool) (l : List (String × Rat)) :
    (l.filter fun e => p e.1).map Prod.fst = (l.map Prod.fst).filter p := by
  induction l with
  | nil => rfl
  | cons b t ih =>
    by_cases h : p b.1
    · simp [List.filter_cons, h, ih]
    · simp [List.filter_cons, h, ih]

/-- `Object.keys` is the JavaScript key reordering of the insertion
order of the keys. -/
theorem jsObjectKeys_eq_jsKeyOrder (o : JSObj) :
    jsObjectKeys o = jsKeyOrder (o.map Prod.fst) := by
  unfold jsObjectKeys jsOrderEntries jsKeyOrder
  rw [List.map_append, map_fst_insertionSort, map_fst_filter isArrayIndexKey,
    map_fst_filter (fun k => !isArrayIndexKey k)]

/-- With a dataset present and both axes non-empty, the guard of
`generateChartData` passes and the new chart data replaces the state. -/
theorem generateChartData_eq (d : List Row) (cfg : ChartConfig) (prev : Option ChartData)
    (hx : cfg.xAxis ≠ "") (hy : cfg.yAxis ≠ "") :
    generateChartData (some d) cfg prev = some (mkChartData d cfg) := by
  simp only [generateChartData]
  rw [if_neg]
  rintro (h | h)
  · exact hx h
  · exact hy h

/-- The pie branch of `mkChartData`, unfolded. -/
theorem mkChartData_pie (d : List Row) (cfg : ChartConfig) (hp : cfg.type = "pie") :
    mkChartData d cfg
      = ChartData.pie (jsObjectKeys (buildAggregated d cfg.xAxis cfg.yAxis))
          [⟨jsObjectValues (buildAggregated d cfg.xAxis cfg.yAxis), pieColors⟩] := by
  simp [mkChartData, hp]

/-- The bar/line/scatter branch of `mkChartData`, unfolded. -/
theorem mkChartData_cart (d : List Row) (cfg : ChartConfig) (hp : cfg.type ≠ "pie") :
    mkChartData d cfg
      = ChartData.cart (d.map fun row => row.lookup cfg.xAxis)
          [⟨cfg.yAxis, d.map fun row => toNumJS (row.lookup cfg.yAxis),
            (if cfg.type = "bar" then some "rgba(54, 162, 235, 0.6)" else none),
            "rgba(54, 162, 235, 1)", 2, false⟩] := by
  simp [mkChartData, hp]

/-- The three-row region/sales dataset used by the spec's examples. -/
def wData : List Row :=
  [[("region", Value.str "A"), ("sales", Value.str "10")],
   [("region", Value.str "B"), ("sales", Value.str "20")],
   [("region", Value.str "A"), ("sales", Value.str "5")]]

/-- C1: for every dataset and every bar, line or scatter request with
both axes set, the output has exactly one point per input row in
original row order: the labels are the raw x cells (unconverted, with
duplicates kept, neither merged nor sorted), the values are the
coerced y cells, and both sequences have the dataset's length. -/
theorem claim_C1_point_per_row (d : List Row) (cfg : ChartConfig) (prev : Option ChartData)
    (ht : cfg.type = "bar" ∨ cfg.type = "line" ∨ cfg.type = "scatter")
    (hx : cfg.xAxis ≠ "") (hy : cfg.yAxis ≠ "") :
    generateChartData (some d) cfg prev
      = some (ChartData.cart (d.map fun row => row.lookup cfg.xAxis)
          [⟨cfg.yAxis, d.map fun row => toNumJS (row.lookup cfg.yAxis),
            (if cfg.type = "bar" then some "rgba(54, 162, 235, 0.6)" else none),
            "rgba(54, 162, 235, 1)", 2, false⟩])
      ∧ (d.map fun row => row.lookup cfg.xAxis).length = d.length
      ∧ (d.map fun row => toNumJS (row.lookup cfg.yAxis)).length = d.length := by
  have hp : cfg.type ≠ "pie" := by
    rcases ht with h | h | h <;> simp [h]
  exact ⟨by rw [generateChartData_eq d cfg prev hx hy, mkChartData_cart d cfg hp],
    by simp, by simp⟩

/-- C1 witness: the theorem applied to the example dataset and a bar
request. -/
theorem claim_C1_witness :
    generateChartData (some wData) ⟨"bar", "", "region", "sales"⟩ none
      = some (ChartData.cart [some (Value.str "A"), some (Value.str "B"), some (Value.str "A")]
          [⟨"sales", [10, 20, 5], some "rgba(54, 162, 235, 0.6)",
            "rgba(54, 162, 235, 1)", 2, false⟩])
      ∧ (3 : Nat) = 3 ∧ (3 : Nat) = 3 := by
  have h := claim_C1_point_per_row wData ⟨"bar", "", "region", "sales"⟩ none
    (Or.inl rfl) (by decide) (by decide)
  with_unfolding_all exact h

/-- C3 counterexample: with the integer-like categories "2" then "1",
JavaScript object key ordering sorts the keys numerically, so the pie
labels are not in first-seen order, refuting the claim as stated. -/
theorem claim_C3_counterexample :
    generateChartData (some [[("x", Value.str "2"), ("y", Value.str "1")],
        [("x", Value.str "1"), ("y", Value.str "2")]]) ⟨"pie", "", "x", "y"⟩ none
      = some (ChartData.pie ["1", "2"] [⟨[2, 1], pieColors⟩])
      ∧ firstSeenAux [] ([[("x", Value.str "2"), ("y", Value.str "1")],
          [("x", Value.str "1"), ("y", Value.str "2")]].map fun r => toJSString (r.lookup "x"))
        = ["2", "1"]
      ∧ (["1", "2"] : List String) ≠ ["2", "1"] := by
  with_unfolding_all decide

/-- C4 counterexample: a non-empty axis name that is not a column of
the dataset passes the guard, so the result is a full-length series of
`undefined` labels and coerced values, not an empty or null-equivalent
one, refuting the claim as stated. -/
theorem claim_C4_counterexample :
    generateChartData (some [[("a", Value.str "1")]]) ⟨"bar", "", "bogus", "a"⟩ none
      = some (ChartData.cart [none]
          [⟨"a", [1], some "rgba(54, 162, 235, 0.6)", "rgba(54, 162, 235, 1)", 2, false⟩])
      ∧ [(none : Option Value)] ≠ [] := by
  with_unfolding_all decide

/-- C4 amended: the guard fires exactly on a missing dataset or an
empty (unset) axis selection; in those cases the handler is a no-op
that keeps the previous chart data and never fails.  (An axis name
that is non-empty but not a valid column passes the guard and yields a
full-length series, per the counterexample.) -/
theorem claim_C4_amended (d : List Row) (cfg : ChartConfig) (prev : Option ChartData)
    (h : cfg.xAxis = "" ∨ cfg.yAxis = "") :
    generateChartData none cfg prev = prev
      ∧ generateChartData (some d) cfg prev = prev := by
  refine ⟨rfl, ?_⟩
  simp only [generateChartData]
  exact if_pos h

/-- C4 amended witness: both no-op cases at a concrete empty-axis
configuration. -/
theorem claim_C4_amended_witness :
    generateChartData none ⟨"bar", "", "", "sales"⟩ none = none
      ∧ generateChartData (some []) ⟨"bar", "", "", "sales"⟩ none = none :=
  claim_C4_amended [] ⟨"bar", "", "", "sales"⟩ none (Or.inl rfl)

/-- C7: the empty dataset with both axes set produces an empty series
for every chart type — empty labels and values for pie, and for every
non-pie type (bar, line, scatter) empty label and value sequences —
never an error. -/
theorem claim_C7_empty_dataset (cfg : ChartConfig) (prev : Option ChartData)
    (hx : cfg.xAxis ≠ "") (hy : cfg.yAxis ≠ "") :
    (cfg.type = "pie" →
      generateChartData (some []) cfg prev = some (ChartData.pie [] [⟨[], pieColors⟩]))
      ∧ (cfg.type ≠ "pie" →
        generateChartData (some []) cfg prev
          = some (ChartData.cart [] [⟨cfg.yAxis, [],
              (if cfg.type = "bar" then some "rgba(54, 162, 235, 0.6)" else none),
              "rgba(54, 162, 235, 1)", 2, false⟩])) := by
  constructor
  · intro hp
    rw [generateChartData_eq [] cfg prev hx hy, mkChartData_pie [] cfg hp]
    rfl
  · intro hp
    rw [generateChartData_eq [] cfg prev hx hy, mkChartData_cart [] cfg hp]
    rfl

/-- C7 witness: the empty dataset under a concrete pie request. -/
theorem claim_C7_witness :
    (("pie" : String) = "pie" →
      generateChartData (some []) ⟨"pie", "", "region", "sales"⟩ none
        = some (ChartData.pie [] [⟨[], pieColors⟩]))
      ∧ (("pie" : String) ≠ "pie" →
        generateChartData (some []) ⟨"pie", "", "region", "sales"⟩ none
          = some (ChartData.cart [] [⟨"sales", [],
              (if ("pie" : String) = "bar" then some "rgba(54, 162, 235, 0.6)" else none),
              "rgba(54, 162, 235, 1)", 2, false⟩])) :=
  claim_C7_empty_dataset ⟨"pie", "", "region", "sales"⟩ none (by decide) (by decide)

/-- C8: on the dataset [{region A, sales "10"}, {region B, sales "20"},
{region A, sales "5"}], a pie request yields exactly the mapping
A to 15, B to 20, and a bar request yields exactly the labels A, B, A
and the values 10, 20, 5 with the duplicate label A not merged. -/
theorem claim_C8_example :
    generateChartData (some wData) ⟨"pie", "", "region", "sales"⟩ none
      = some (ChartData.pie ["A", "B"] [⟨[15, 20], pieColors⟩])
      ∧ generateChartData (some wData) ⟨"bar", "", "region", "sales"⟩ none
        = some (ChartData.cart [some (Value.str "A"), some (Value.str "B"), some (Value.str "A")]
            [⟨"sales", [10, 20, 5], some "rgba(54, 162, 235, 0.6)",
              "rgba(54, 162, 235, 1)", 2, false⟩]) := by
  with_unfolding_all decide

/-- C9: the handler is deterministic and idempotent as a state
transformer: running it twice with the same dataset and request gives
the same chart data as running it once — there is no hidden state or
order drift between consecutive invocations. -/
theorem claim_C9_idempotent (ed : Option (List Row)) (cfg : ChartConfig)
    (s : Option ChartData) :
    generateChartData ed cfg (generateChartData ed cfg s) = generateChartData ed cfg s := by
  cases ed with
  | none => rfl
  | some d =>
    simp only [generateChartData]
    by_cases h : cfg.xAxis = "" ∨ cfg.yAxis = ""
    · simp only [if_pos h]
    · simp only [if_neg h]

/-- C2: for every dataset and pie request with both axes set, the sum
of all output values equals the sum over all rows of the y cell
coerced to a number (non-numeric or missing cells counting as zero —
the coercion is built into `toNumJS`). -/
theorem claim_C2_pie_sum (d : List Row) (cfg : ChartConfig) (prev : Option ChartData)
    (hp : cfg.type = "pie") (hx : cfg.xAxis ≠ "") (hy : cfg.yAxis ≠ "") :
    generateChartData (some d) cfg prev
      = some (ChartData.pie (jsObjectKeys (buildAggregated d cfg.xAxis cfg.yAxis))
          [⟨jsObjectValues (buildAggregated d cfg.xAxis cfg.yAxis), pieColors⟩])
      ∧ (jsObjectValues (buildAggregated d cfg.xAxis cfg.yAxis)).sum
          = (d.map fun r => toNumJS (r.lookup cfg.yAxis)).sum := by
  refine ⟨by rw [generateChartData_eq d cfg prev hx hy, mkChartData_pie d cfg hp], ?_⟩
  rw [← sum_snd_buildAggregated d cfg.xAxis cfg.yAxis]
  exact ((perm_jsOrderEntries (buildAggregated d cfg.xAxis cfg.yAxis)).map Prod.snd).sum_eq

/-- C2 witness: the theorem applied to the example dataset. -/
theorem claim_C2_pie_sum_witness :
    generateChartData (some wData) ⟨"pie", "", "region", "sales"⟩ none
      = some (ChartData.pie (jsObjectKeys (buildAggregated wData "region" "sales"))
          [⟨jsObjectValues (buildAggregated wData "region" "sales"), pieColors⟩])
      ∧ (jsObjectValues (buildAggregated wData "region" "sales")).sum
          = (wData.map fun r => toNumJS (r.lookup "sales")).sum :=
  claim_C2_pie_sum wData ⟨"pie", "", "region", "sales"⟩ none rfl (by decide) (by decide)

/-- C3 amended: for every dataset and pie request with both axes set,
the output keys are the stringified x cells in first-seen order,
except that keys which are canonical array-index strings (the decimal
form, with no leading zero, of a natural number below 2^32 - 1) are
listed before all other keys in ascending numeric order, per
JavaScript object property ordering; the remaining keys keep
first-seen order. -/
theorem claim_C3_amended (d : List Row) (cfg : ChartConfig) (prev : Option ChartData)
    (hp : cfg.type = "pie") (hx : cfg.xAxis ≠ "") (hy : cfg.yAxis ≠ "") :
    generateChartData (some d) cfg prev
      = some (ChartData.pie
          (jsKeyOrder (firstSeenAux [] (d.map fun r => toJSString (r.lookup cfg.xAxis))))
          [⟨jsObjectValues (buildAggregated d cfg.xAxis cfg.yAxis), pieColors⟩]) := by
  rw [generateChartData_eq d cfg prev hx hy, mkChartData_pie d cfg hp,
    jsObjectKeys_eq_jsKeyOrder, fst_buildAggregated]

/-- C3 amended witness: on the integer-like categories "2" then "1"
the keys come out numerically sorted ahead of first-seen order. -/
theorem claim_C3_amended_witness :
    generateChartData (some [[("x", Value.str "2"), ("y", Value.str "1")],
        [("x", Value.str "1"), ("y", Value.str "2")]]) ⟨"pie", "", "x", "y"⟩ none
      = some (ChartData.pie
          (jsKeyOrder (firstSeenAux [] ([[("x", Value.str "2"), ("y", Value.str "1")],
              [("x", Value.str "1"), ("y", Value.str "2")]].map
            fun r => toJSString (r.lookup "x"))))
          [⟨jsObjectValues (buildAggregated [[("x", Value.str "2"), ("y", Value.str "1")],
              [("x", Value.str "1"), ("y", Value.str "2")]] "x" "y"), pieColors⟩]) :=
  claim_C3_amended [[("x", Value.str "2"), ("y", Value.str "1")],
    [("x", Value.str "1"), ("y", Value.str "2")]] ⟨"pie", "", "x", "y"⟩ none
    rfl (by decide) (by decide)

/-- C5: for every dataset and pie request with both axes set, the
number of output keys equals the number of distinct x cells of the
dataset (distinct as grouping keys, i.e. after the string conversion
the code groups by), and the key of every row appears exactly once in
the output key list. -/
theorem claim_C5_distinct_keys (d : List Row) (cfg : ChartConfig) (prev : Option ChartData)
    (hp : cfg.type = "pie") (hx : cfg.xAxis ≠ "") (hy : cfg.yAxis ≠ "") :
    generateChartData (some d) cfg prev
      = some (ChartData.pie (jsObjectKeys (buildAggregated d cfg.xAxis cfg.yAxis))
          [⟨jsObjectValues (buildAggregated d cfg.xAxis cfg.yAxis), pieColors⟩])
      ∧ (jsObjectKeys (buildAggregated d cfg.xAxis cfg.yAxis)).length
          = (d.map fun r => toJSString (r.lookup cfg.xAxis)).dedup.length
      ∧ ∀ r ∈ d,
          (jsObjectKeys (buildAggregated d cfg.xAxis cfg.yAxis)).count
            (toJSString (r.lookup cfg.xAxis)) = 1 := by
  have hperm : (jsObjectKeys (buildAggregated d cfg.xAxis cfg.yAxis)).Perm
      ((buildAggregated d cfg.xAxis cfg.yAxis).map Prod.fst) :=
    (perm_jsOrderEntries (buildAggregated d cfg.xAxis cfg.yAxis)).map Prod.fst
  have hfs : (buildAggregated d cfg.xAxis cfg.yAxis).map Prod.fst
      = firstSeenAux [] (d.map fun r => toJSString (r.lookup cfg.xAxis)) :=
    fst_buildAggregated d cfg.xAxis cfg.yAxis
  have hnd : ((buildAggregated d cfg.xAxis cfg.yAxis).map Prod.fst).Nodup := by
    rw [hfs]; exact nodup_firstSeenAux _ []
  refine ⟨by rw [generateChartData_eq d cfg prev hx hy, mkChartData_pie d cfg hp], ?_, ?_⟩
  · rw [hperm.length_eq, hfs]
    have h1 : (firstSeenAux [] (d.map fun r => toJSString (r.lookup cfg.xAxis))).toFinset
        = (d.map fun r => toJSString (r.lookup cfg.xAxis)).toFinset := by
      ext a
      simp [List.mem_toFinset, mem_firstSeenAux]
    calc (firstSeenAux [] (d.map fun r => toJSString (r.lookup cfg.xAxis))).length
        = (firstSeenAux [] (d.map fun r => toJSString (r.lookup cfg.xAxis))).toFinset.card :=
          (List.toFinset_card_of_nodup (nodup_firstSeenAux _ [])).symm
      _ = (d.map fun r => toJSString (r.lookup cfg.xAxis)).toFinset.card := by rw [h1]
      _ = (d.map fun r => toJSString (r.lookup cfg.xAxis)).dedup.length :=
          List.card_toFinset _
  · intro r hr
    rw [hperm.count_eq]
    refine List.count_eq_one_of_mem hnd ?_
    rw [hfs, mem_firstSeenAux]
    exact ⟨List.mem_map_of_mem _ hr, by simp⟩

/-- C5 witness: the theorem applied to the example dataset. -/
theorem claim_C5_distinct_keys_witness :
    generateChartData (some wData) ⟨"pie", "", "region", "sales"⟩ none
      = some (ChartData.pie (jsObjectKeys (buildAggregated wData "region" "sales"))
          [⟨jsObjectValues (buildAggregated wData "region" "sales"), pieColors⟩])
      ∧ (jsObjectKeys (buildAggregated wData "region" "sales")).length
          = (wData.map fun r => toJSString (r.lookup "region")).dedup.length
      ∧ ∀ r ∈ wData,
          (jsObjectKeys (buildAggregated wData "region" "sales")).count
            (toJSString (r.lookup "region")) = 1 :=
  claim_C5_distinct_keys wData ⟨"pie", "", "region", "sales"⟩ none rfl (by decide) (by decide)

/-- `parseFloat` finds no number in the string form of `undefined`. -/
theorem parseFloatQ_undefined : parseFloatQ "undefined" = none := by
  decide

/-- C6: for every row of a bar/line/scatter request with both axes
set: a y cell whose numeric parse fails (non-numeric string, or
missing cell) coerces to exactly zero and appears as exactly zero at
that row's position of the value sequence — silently, never rejected —
and a row missing the x-axis column contributes the `undefined` marker
(`none`) as its label at that row's position.  (Since the pie total
equals the sum of the coerced cells — C2 — a zero coercion also
contributes exactly zero to pie sums.) -/
theorem claim_C6_coercion (d : List Row) (cfg : ChartConfig) (prev : Option ChartData)
    (i : Nat) (r : Row)
    (ht : cfg.type = "bar" ∨ cfg.type = "line" ∨ cfg.type = "scatter")
    (hx : cfg.xAxis ≠ "") (hy : cfg.yAxis ≠ "")
    (hr : d[i]? = some r) :
    generateChartData (some d) cfg prev
      = some (ChartData.cart (d.map fun row => row.lookup cfg.xAxis)
          [⟨cfg.yAxis, d.map fun row => toNumJS (row.lookup cfg.yAxis),
            (if cfg.type = "bar" then some "rgba(54, 162, 235, 0.6)" else none),
            "rgba(54, 162, 235, 1)", 2, false⟩])
      ∧ (nonNumericCell (r.lookup cfg.yAxis) = true →
          toNumJS (r.lookup cfg.yAxis) = 0
            ∧ (d.map fun row => toNumJS (row.lookup cfg.yAxis))[i]? = some 0)
      ∧ (r.lookup cfg.xAxis = none →
          (d.map fun row => row.lookup cfg.xAxis)[i]? = some none) := by
  have hp : cfg.type ≠ "pie" := by rcases ht with h | h | h <;> simp [h]
  refine ⟨by rw [generateChartData_eq d cfg prev hx hy, mkChartData_cart d cfg hp], ?_, ?_⟩
  · intro hnn
    have h0 : toNumJS (r.lookup cfg.yAxis) = 0 := by
      cases hv : r.lookup cfg.yAxis with
      | none => simp [toNumJS, toJSString, parseFloatQ_undefined]
      | some v =>
        cases v with
        | str s =>
          have hps : parseFloatQ s = none := by
            rw [hv] at hnn
            simpa [nonNumericCell, Option.isNone_iff_eq_none] using hnn
          simp [toNumJS, toJSString, hps]
        | num q =>
          rw [hv] at hnn
          simp [nonNumericCell] at hnn
    refine ⟨h0, ?_⟩
    rw [List.getElem?_map, hr]
    simp [h0]
  · intro hxn
    rw [List.getElem?_map, hr]
    simp [hxn]

/-- C6 witness: a row whose sales cell is the non-numeric string
"abc" and which lacks the region column entirely. -/
theorem claim_C6_coercion_witness :
    nonNumericCell (([("sales", Value.str "abc")] : Row).lookup "sales") = true
      ∧ (generateChartData (some [[("sales", Value.str "abc")]])
            ⟨"bar", "", "region", "sales"⟩ none
          = some (ChartData.cart ([[("sales", Value.str "abc")]].map
                fun row => row.lookup "region")
              [⟨"sales", [[("sales", Value.str "abc")]].map
                  fun row => toNumJS (row.lookup "sales"),
                some "rgba(54, 162, 235, 0.6)", "rgba(54, 162, 235, 1)", 2, false⟩])
          ∧ (nonNumericCell (([("sales", Value.str "abc")] : Row).lookup "sales") = true →
              toNumJS (([("sales", Value.str "abc")] : Row).lookup "sales") = 0
                ∧ ([[("sales", Value.str "abc")]].map
                    fun row => toNumJS (row.lookup "sales"))[0]? = some 0)
          ∧ (([("sales", Value.str "abc")] : Row).lookup "region" = none →
              ([[("sales", Value.str "abc")]].map
                  fun row => row.lookup "region")[0]? = some none)) :=
  ⟨by decide,
    claim_C6_coercion [[("sales", Value.str "abc")]] ⟨"bar", "", "region", "sales"⟩ none
      0 [("sales", Value.str "abc")] (Or.inl rfl) (by decide) (by decide) rfl⟩

/-- C10: pie grouping keys are compared after string conversion: the
key of every row is its stringified x cell, each such key appears
exactly once among the output keys, paired (in the label/value
correspondence of the output) with the combined y sum of all rows
sharing that string key — so distinct scalars with the same string
form (the number 1 and the string "1") merge into one key, and rows
missing the x column are all grouped under the single key formed from
the `undefined` marker. -/
theorem claim_C10_string_key_merge (d : List Row) (cfg : ChartConfig) (prev : Option ChartData)
    (hp : cfg.type = "pie") (hx : cfg.xAxis ≠ "") (hy : cfg.yAxis ≠ "") :
    generateChartData (some d) cfg prev
      = some (ChartData.pie (jsObjectKeys (buildAggregated d cfg.xAxis cfg.yAxis))
          [⟨jsObjectValues (buildAggregated d cfg.xAxis cfg.yAxis), pieColors⟩])
      ∧ toJSString none = "undefined"
      ∧ ∀ r ∈ d,
          (toJSString (r.lookup cfg.xAxis),
              ((d.filter fun r2 =>
                  toJSString (r2.lookup cfg.xAxis) == toJSString (r.lookup cfg.xAxis)).map
                fun r2 => toNumJS (r2.lookup cfg.yAxis)).sum)
            ∈ (jsObjectKeys (buildAggregated d cfg.xAxis cfg.yAxis)).zip
                (jsObjectValues (buildAggregated d cfg.xAxis cfg.yAxis))
          ∧ (jsObjectKeys (buildAggregated d cfg.xAxis cfg.yAxis)).count
              (toJSString (r.lookup cfg.xAxis)) = 1 := by
  have hfs : (buildAggregated d cfg.xAxis cfg.yAxis).map Prod.fst
      = firstSeenAux [] (d.map fun r => toJSString (r.lookup cfg.xAxis)) :=
    fst_buildAggregated d cfg.xAxis cfg.yAxis
  have hnd : ((buildAggregated d cfg.xAxis cfg.yAxis).map Prod.fst).Nodup := by
    rw [hfs]; exact nodup_firstSeenAux _ []
  refine ⟨by rw [generateChartData_eq d cfg prev hx hy, mkChartData_pie d cfg hp], rfl, ?_⟩
  intro r hr
  have hkmem : toJSString (r.lookup cfg.xAxis)
      ∈ (buildAggregated d cfg.xAxis cfg.yAxis).map Prod.fst := by
    rw [hfs, mem_firstSeenAux]
    exact ⟨List.mem_map_of_mem _ hr, by simp⟩
  constructor
  · have hzip : (jsObjectKeys (buildAggregated d cfg.xAxis cfg.yAxis)).zip
        (jsObjectValues (buildAggregated d cfg.xAxis cfg.yAxis))
        = jsOrderEntries (buildAggregated d cfg.xAxis cfg.yAxis) :=
      zip_fst_snd_entries (jsOrderEntries (buildAggregated d cfg.xAxis cfg.yAxis))
    rw [hzip, ← objGet_buildAggregated d cfg.xAxis cfg.yAxis (toJSString (r.lookup cfg.xAxis))]
    exact ((perm_jsOrderEntries (buildAggregated d cfg.xAxis cfg.yAxis)).mem_iff).mpr
      (mem_entry_of_mem_keys (buildAggregated d cfg.xAxis cfg.yAxis)
        (toJSString (r.lookup cfg.xAxis)) hkmem)
  · have hperm : (jsObjectKeys (buildAggregated d cfg.xAxis cfg.yAxis)).Perm
        ((buildAggregated d cfg.xAxis cfg.yAxis).map Prod.fst) :=
      (perm_jsOrderEntries (buildAggregated d cfg.xAxis cfg.yAxis)).map Prod.fst
    rw [hperm.count_eq]
    exact List.count_eq_one_of_mem hnd hkmem

/-- A dataset mixing a numeric x cell, a string x cell with the same
string form, and a row with no x cell at all. -/
def mixData : List Row :=
  [[("x", Value.num 1), ("y", Value.str "2")],
   [("x", Value.str "1"), ("y", Value.str "3")],
   [("y", Value.str "4")]]

/-- C10 witness: on `mixData` the number 1 and the string "1" merge
into the single key "1" with combined sum 5, and the row without an x
cell is grouped under the key "undefined"; the theorem is applied to
this dataset. -/
theorem claim_C10_string_key_merge_witness :
    (jsObjectKeys (buildAggregated mixData "x" "y") = ["1", "undefined"]
        ∧ jsObjectValues (buildAggregated mixData "x" "y") = [5, 4])
      ∧ (generateChartData (some mixData) ⟨"pie", "", "x", "y"⟩ none
          = some (ChartData.pie (jsObjectKeys (buildAggregated mixData "x" "y"))
              [⟨jsObjectValues (buildAggregated mixData "x" "y"), pieColors⟩])
          ∧ toJSString none = "undefined"
          ∧ ∀ r ∈ mixData,
              (toJSString (r.lookup "x"),
                  ((mixData.filter fun r2 =>
                      toJSString (r2.lookup "x") == toJSString (r.lookup "x")).map
                    fun r2 => toNumJS (r2.lookup "y")).sum)
                ∈ (jsObjectKeys (buildAggregated mixData "x" "y")).zip
                    (jsObjectValues (buildAggregated mixData "x" "y"))
              ∧ (jsObjectKeys (buildAggregated mixData "x" "y")).count
                  (toJSString (r.lookup "x")) = 1) :=
  ⟨by with_unfolding_all decide,
    claim_C10_string_key_merge mixData ⟨"pie", "", "x", "y"⟩ none rfl (by decide) (by decide)⟩
